import Mathlib

/-!
Shallow embedding of the `ads` client library core (`ads/core.py`) and proofs
about its paginated query protocol, record model, response parsing and
credential resolution.

Machine-level conventions: Python `None` is `Option.none`; Python dicts used
as field maps are association lists (`List (String × _)`, lookup finds the
most recent binding, matching dict overwrite); the remote solr server is
modelled as an honest total result list `world`, where one page fetch at
offset `start` returns `(world.drop start).take rows` and reports
`numFound = world.length`.
-/

namespace Ads

/-- Python 3 `math.ceil(a / b)` for natural `a`, `b` (`b > 0` in all uses:
the constructor asserts `rows > 0`). -/
def ceilDiv (a b : Nat) : Nat := (a + b - 1) / b

/-- The two `StopIteration` reasons raised by `SearchQuery.__next__`. -/
inductive StopReason where
  | allFound   -- StopIteration("All records found")
  | maxPages   -- StopIteration("Maximum number of pages queried")
deriving DecidableEq, Repr

/-- State of a `SearchQuery` relevant to pagination: the mutable parts of
`self._query` (`start`, `rows`), `max_pages`, the accumulated `_articles`
list, the `numFound` of the current response (`none` when `self.response is
None`), and the private iteration counter. Records are abstracted to an
arbitrary type `α`. -/
structure SearchQuery (α : Type u) where
  rows : Nat
  start : Nat
  max_pages : Nat
  articles : List α
  response : Option Nat
  iter_counter : Nat
deriving DecidableEq, Repr

/-- A freshly constructed query: no response yet, nothing accumulated. -/
def SearchQuery.fresh (rows start max_pages : Nat) : SearchQuery α :=
  { rows := rows, start := start, max_pages := max_pages,
    articles := [], response := none, iter_counter := 0 }

/-- `SearchQuery.execute`: fetch the page at the current `start`, append the
returned docs to `_articles`, record the response, advance `start` by
`rows`. -/
def SearchQuery.execute (world : List α) (s : SearchQuery α) : SearchQuery α :=
  { s with
    response := some world.length,
    articles := s.articles ++ (world.drop s.start).take s.rows,
    start := s.start + s.rows }

/-- Result of one `__next__` call. `indexError` models the uncaught
`IndexError` that would escape if the freshly executed page still lacked the
requested index (never reached against an honest server). -/
inductive NextResult (α : Type u) where
  | yielded (a : α) (s : SearchQuery α)
  | stopped (reason : StopReason) (s : SearchQuery α)
  | indexError (s : SearchQuery α)
deriving DecidableEq, Repr

/-- The `try`/`except IndexError` body of `SearchQuery.__next__`, run on a
state whose `response` is already set (so `response.getD 0` reads the actual
`numFound`). -/
def SearchQuery.advance (world : List α) (s : SearchQuery α) : NextResult α :=
  match s.articles[s.iter_counter]? with
  | some cur => .yielded cur { s with iter_counter := s.iter_counter + 1 }
  | none =>
    if s.response.getD 0 ≤ s.articles.length then
      .stopped .allFound s
    else if s.max_pages < ceilDiv s.articles.length s.rows then
      .stopped .maxPages s
    else
      match (s.execute world).articles[(s.execute world).iter_counter]? with
      | some cur =>
        .yielded cur
          { s.execute world with iter_counter := (s.execute world).iter_counter + 1 }
      | none => .indexError (s.execute world)

/-- `SearchQuery.__next__`: if never executed, execute first, then run the
try/except body. -/
def SearchQuery.next (world : List α) (s : SearchQuery α) : NextResult α :=
  match s.response with
  | none => SearchQuery.advance world (s.execute world)
  | some _ => SearchQuery.advance world s

/-- Terminal outcome of repeatedly calling `__next__`. -/
inductive RunOutcome (α : Type u) where
  | outOfFuel (s : SearchQuery α)
  | stopped (reason : StopReason) (s : SearchQuery α)
  | crashed (s : SearchQuery α)
deriving DecidableEq, Repr

/-- Call `__next__` up to `fuel` times, collecting the yielded records in
order, until a `StopIteration` (or crash) terminates the loop. -/
def SearchQuery.run (world : List α) : Nat → SearchQuery α → List α × RunOutcome α
  | 0, s => ([], .outOfFuel s)
  | fuel+1, s =>
    match SearchQuery.next world s with
    | .yielded a s' =>
      let rest := SearchQuery.run world fuel s'
      (a :: rest.1, rest.2)
    | .stopped reason s' => ([], .stopped reason s')
    | .indexError s' => ([], .crashed s')

/-- `k` successive calls to `execute`. -/
def SearchQuery.executeK (world : List α) : Nat → SearchQuery α → SearchQuery α
  | 0, s => s
  | k+1, s => SearchQuery.executeK world k (s.execute world)

theorem executeK_start (world : List α) :
    ∀ (k : Nat) (s : SearchQuery α),
      (SearchQuery.executeK world k s).start = s.start + k * s.rows := by
  intro k
  induction k with
  | zero => intro s; simp [SearchQuery.executeK]
  | succ k ih =>
    intro s
    simp only [SearchQuery.executeK]
    rw [ih]
    simp [SearchQuery.execute, Nat.succ_mul]
    omega

/-- Claim C3: for a query constructed with initial start offset 0, after `k`
successful calls to `execute()` the query's `start` parameter equals
`k * rows` (each `execute` advances `start` by exactly `rows`). -/
theorem searchQuery_start_after_k_executes (world : List α) (k r m : Nat) :
    (SearchQuery.executeK world k (SearchQuery.fresh r 0 m)).start = k * r := by
  rw [executeK_start]
  simp [SearchQuery.fresh]

/-! ## Pagination: characterizing one `__next__` step -/

theorem ceilDiv_mul_self (p r : Nat) (hr : 0 < r) : ceilDiv (p * r) r = p := by
  unfold ceilDiv
  have h1 : p * r + r - 1 = (r - 1) + p * r := by omega
  rw [h1, Nat.add_mul_div_right _ _ hr, Nat.div_eq_of_lt (by omega)]
  omega

theorem next_eq_advance (world : List α) (s : SearchQuery α) (nf : Nat)
    (h : s.response = some nf) :
    SearchQuery.next world s = SearchQuery.advance world s := by
  unfold SearchQuery.next
  rw [h]

theorem advance_yield (world : List α) (s : SearchQuery α)
    (h : s.iter_counter < s.articles.length) :
    SearchQuery.advance world s =
      .yielded (s.articles.get ⟨s.iter_counter, h⟩)
        { s with iter_counter := s.iter_counter + 1 } := by
  unfold SearchQuery.advance
  rw [List.getElem?_eq_getElem h]
  rfl

theorem advance_stop_allFound (world : List α) (s : SearchQuery α) (nf : Nat)
    (hresp : s.response = some nf) (hc : s.articles.length ≤ s.iter_counter)
    (hnf : nf ≤ s.articles.length) :
    SearchQuery.advance world s = .stopped .allFound s := by
  unfold SearchQuery.advance
  rw [List.getElem?_eq_none hc, hresp]
  simp [hnf]

theorem advance_stop_maxPages (world : List α) (s : SearchQuery α) (nf : Nat)
    (hresp : s.response = some nf) (hc : s.articles.length ≤ s.iter_counter)
    (hnf : s.articles.length < nf)
    (hpage : s.max_pages < ceilDiv s.articles.length s.rows) :
    SearchQuery.advance world s = .stopped .maxPages s := by
  unfold SearchQuery.advance
  rw [List.getElem?_eq_none hc, hresp]
  simp [Nat.not_le.mpr hnf, hpage]

theorem advance_refetch_yield (world : List α) (s : SearchQuery α) (nf : Nat)
    (hresp : s.response = some nf) (hc : s.articles.length ≤ s.iter_counter)
    (hnf : s.articles.length < nf)
    (hpage : ¬s.max_pages < ceilDiv s.articles.length s.rows)
    (h2 : (s.execute world).iter_counter < (s.execute world).articles.length) :
    SearchQuery.advance world s =
      .yielded ((s.execute world).articles.get ⟨(s.execute world).iter_counter, h2⟩)
        { s.execute world with
          iter_counter := (s.execute world).iter_counter + 1 } := by
  unfold SearchQuery.advance
  rw [List.getElem?_eq_none hc, hresp]
  rw [if_neg (by simp [Nat.not_le.mpr hnf]), if_neg hpage]
  rw [List.getElem?_eq_getElem h2]
  rfl

theorem run_succ_of_yielded (world : List α) (fuel : Nat)
    (s s2 : SearchQuery α) (a : α)
    (h : SearchQuery.next world s = .yielded a s2) :
    SearchQuery.run world (fuel + 1) s =
      (a :: (SearchQuery.run world fuel s2).1,
       (SearchQuery.run world fuel s2).2) := by
  simp only [SearchQuery.run, h]

theorem run_succ_of_stopped (world : List α) (fuel : Nat)
    (s s2 : SearchQuery α) (reason : StopReason)
    (h : SearchQuery.next world s = .stopped reason s2) :
    SearchQuery.run world (fuel + 1) s = ([], .stopped reason s2) := by
  simp only [SearchQuery.run, h]

/-- Invariant of a `SearchQuery` state mid-iteration against the honest
server `world`, after `p` pages have been fetched: the accumulated articles
are exactly the first `p * r` records, `start` sits at the next page, the
cursor has not run past the accumulated list, and at most one page beyond
the cap has been fetched. -/
structure PageInv (world : List α) (r m p : Nat) (s : SearchQuery α) : Prop where
  rows_eq : s.rows = r
  mp_eq : s.max_pages = m
  start_eq : s.start = p * r
  articles_eq : s.articles = world.take (p * r)
  response_eq : s.response = some world.length
  counter_le : s.iter_counter ≤ min (p * r) world.length
  p_pos : 1 ≤ p
  p_le : p ≤ m + 1

theorem execute_pageInv (world : List α) (r m p : Nat) (s : SearchQuery α)
    (h : PageInv world r m p s) (hlt : p * r < world.length) (hpm : p ≤ m) :
    PageInv world r m (p + 1) (s.execute world) := by
  obtain ⟨h1, h2, h3, h4, h5, h6, h7, h8⟩ := h
  have hmul : p * r ≤ (p + 1) * r := Nat.mul_le_mul_right r (by omega)
  constructor
  · exact h1
  · exact h2
  · simp only [SearchQuery.execute]
    rw [h3, h1]
    ring
  · simp only [SearchQuery.execute]
    rw [h4, h3, h1, Nat.succ_mul, List.take_add]
  · rfl
  · simp only [SearchQuery.execute]
    omega
  · omega
  · omega

/-! ## Pagination: the main run theorem -/

theorem cons_take_drop (world : List α) (c T : Nat) (v : α)
    (hcT : c < T) (hcN : c < world.length) (hv : world[c]? = some v) :
    (world.drop c).take (T - c) = v :: (world.drop (c + 1)).take (T - (c + 1)) := by
  rw [List.drop_eq_getElem_cons hcN]
  have hT : T - c = (T - (c + 1)) + 1 := by omega
  rw [hT, List.take_succ_cons]
  have h2 := List.getElem?_eq_getElem hcN
  rw [hv] at h2
  rw [(Option.some.inj h2).symm]

theorem run_pageInv (world : List α) (r m : Nat) (hr : 0 < r) :
    ∀ (fuel p : Nat) (s : SearchQuery α), PageInv world r m p s →
    min world.length ((m + 1) * r) + 1 ≤ fuel + s.iter_counter →
    ∃ (pf : Nat) (sf : SearchQuery α),
      SearchQuery.run world fuel s =
        ((world.drop s.iter_counter).take
            (min world.length ((m + 1) * r) - s.iter_counter),
         .stopped
           (if world.length ≤ (m + 1) * r then .allFound else .maxPages) sf) ∧
      PageInv world r m pf sf ∧
      sf.iter_counter = min world.length ((m + 1) * r) ∧
      ((m + 1) * r < world.length → pf = m + 1) := by
  intro fuel
  induction fuel with
  | zero =>
    intro p s hinv hfuel
    exfalso
    obtain ⟨h1, h2, h3, h4, h5, h6, h7, h8⟩ := hinv
    have hmul : p * r ≤ (m + 1) * r := Nat.mul_le_mul_right r h8
    omega
  | succ fuel ih =>
    intro p s hinv hfuel
    obtain ⟨h1, h2, h3, h4, h5, h6, h7, h8⟩ := hinv
    have hmul : p * r ≤ (m + 1) * r := Nat.mul_le_mul_right r h8
    have hlen : s.articles.length = min (p * r) world.length := by
      rw [h4, List.length_take]
    by_cases hc : s.iter_counter < s.articles.length
    · -- a record is already accumulated at the cursor: plain yield
      have hnext := next_eq_advance world s world.length h5
      rw [advance_yield world s hc] at hnext
      have hcpr : s.iter_counter < p * r := by omega
      have hcN : s.iter_counter < world.length := by omega
      have hv : world[s.iter_counter]? = some (s.articles.get ⟨s.iter_counter, hc⟩) := by
        rw [← List.getElem?_take_of_lt hcpr, ← h4]
        exact List.getElem?_eq_getElem hc
      have hinv2 : PageInv world r m p { s with iter_counter := s.iter_counter + 1 } :=
        ⟨h1, h2, h3, h4, h5, by simp only []; omega, h7, h8⟩
      obtain ⟨pf, sf, hrun2, hinv3, hcf, hpf⟩ :=
        ih p { s with iter_counter := s.iter_counter + 1 } hinv2 (by simp only []; omega)
      refine ⟨pf, sf, ?_, hinv3, hcf, hpf⟩
      rw [run_succ_of_yielded world fuel s _ _ hnext, hrun2]
      rw [cons_take_drop world s.iter_counter (min world.length ((m + 1) * r))
            _ (by omega) hcN hv]
    · -- the cursor ran past the accumulated list
      have hce : s.iter_counter = s.articles.length := by omega
      by_cases hN : world.length ≤ s.articles.length
      · -- all records found: terminal stop, nothing more to yield
        have hnext := next_eq_advance world s world.length h5
        rw [advance_stop_allFound world s world.length h5 (by omega) hN] at hnext
        have hNpr : world.length ≤ p * r := by omega
        have hcw : s.iter_counter = world.length := by omega
        refine ⟨p, s, ?_, ⟨h1, h2, h3, h4, h5, by omega, h7, h8⟩, by omega, by omega⟩
        rw [run_succ_of_stopped world fuel s s _ hnext]
        rw [if_pos (by omega)]
        have hT : min world.length ((m + 1) * r) - s.iter_counter = 0 := by omega
        rw [hT]
        simp
      · -- current page exhausted with more remaining on the server
        have hlt : s.articles.length < world.length := by omega
        have hlenpr : s.articles.length = p * r := by omega
        have hpage_val : ceilDiv s.articles.length s.rows = p := by
          rw [hlenpr, h1, ceilDiv_mul_self p r hr]
        by_cases hmp : s.max_pages < ceilDiv s.articles.length s.rows
        · -- the page check fails: "maximum pages queried"
          have hpm : m < p := by
            rw [hpage_val, h2] at hmp
            exact hmp
          have hpeq : p = m + 1 := by omega
          subst hpeq
          have hnext := next_eq_advance world s world.length h5
          rw [advance_stop_maxPages world s world.length h5 (by omega)
                (by omega) hmp] at hnext
          refine ⟨m + 1, s, ?_, ⟨h1, h2, h3, h4, h5, by omega, h7, h8⟩,
                  by omega, fun _ => rfl⟩
          rw [run_succ_of_stopped world fuel s s _ hnext]
          rw [if_neg (by omega)]
          have hT : min world.length ((m + 1) * r) - s.iter_counter = 0 := by omega
          rw [hT]
          simp
        · -- fetch the next page, then yield from it
          have hpm : p ≤ m := by
            rw [hpage_val, h2] at hmp
            omega
          have hple2 : p * r ≤ m * r := Nat.mul_le_mul_right r hpm
          have hm1 : (m + 1) * r = m * r + 1 * r := Nat.add_mul m 1 r
          have hprlt : p * r < world.length := by omega
          have hinv2 : PageInv world r m (p + 1) (s.execute world) :=
            execute_pageInv world r m p s ⟨h1, h2, h3, h4, h5, h6, h7, h8⟩ hprlt hpm
          have hmul2 : p * r < (p + 1) * r := by
            have h9 := Nat.add_mul p 1 r
            omega
          have hlen2 : (s.execute world).articles.length =
              min ((p + 1) * r) world.length := by
            rw [hinv2.articles_eq, List.length_take]
          have hcexec : (s.execute world).iter_counter = s.iter_counter := rfl
          have hc2 : (s.execute world).iter_counter <
              (s.execute world).articles.length := by
            rw [hcexec, hlen2]
            omega
          have hnext := next_eq_advance world s world.length h5
          rw [advance_refetch_yield world s world.length h5 (by omega) hlt hmp hc2]
            at hnext
          have hcpr2 : s.iter_counter < (p + 1) * r := by omega
          have hcN : s.iter_counter < world.length := by omega
          have hv : world[s.iter_counter]? =
              some ((s.execute world).articles.get
                ⟨(s.execute world).iter_counter, hc2⟩) := by
            rw [← List.getElem?_take_of_lt hcpr2, ← hinv2.articles_eq]
            conv_lhs => rw [show s.iter_counter = (s.execute world).iter_counter from rfl]
            exact List.getElem?_eq_getElem hc2
          have hinv3 : PageInv world r m (p + 1)
              { s.execute world with iter_counter := (s.execute world).iter_counter + 1 } :=
            ⟨hinv2.rows_eq, hinv2.mp_eq, hinv2.start_eq, hinv2.articles_eq,
             hinv2.response_eq, by simp only []; rw [hcexec]; omega,
             by omega, by omega⟩
          obtain ⟨pf, sf, hrun2, hinv4, hcf, hpf⟩ :=
            ih (p + 1) _ hinv3 (by simp only []; rw [hcexec]; omega)
          refine ⟨pf, sf, ?_, hinv4, hcf, hpf⟩
          rw [run_succ_of_yielded world fuel s _ _ hnext, hrun2]
          simp only [hcexec]
          rw [cons_take_drop world s.iter_counter (min world.length ((m + 1) * r))
                _ (by omega) hcN hv]
          rfl

/-! ## Pagination: the claim theorems -/

theorem fresh_execute_pageInv (world : List α) (r m : Nat) :
    PageInv world r m 1 ((SearchQuery.fresh r 0 m : SearchQuery α).execute world) := by
  constructor <;>
    simp [SearchQuery.execute, SearchQuery.fresh]

theorem run_fresh_eq (world : List α) (r m fuel : Nat) :
    SearchQuery.run world (fuel + 1) (SearchQuery.fresh r 0 m : SearchQuery α) =
      SearchQuery.run world (fuel + 1)
        ((SearchQuery.fresh r 0 m : SearchQuery α).execute world) := by
  have h : SearchQuery.next world (SearchQuery.fresh r 0 m : SearchQuery α) =
      SearchQuery.next world ((SearchQuery.fresh r 0 m : SearchQuery α).execute world) :=
    rfl
  simp only [SearchQuery.run]
  rw [h]

/-- Counterexample to Claim C1 as stated: with `rows = 1`, `max_pages = 20`
and a result set of 28 records, iteration yields 21 records before the
"maximum pages queried" stop — the page check `ceil(len/rows) > max_pages`
only fires after page `max_pages + 1` was fetched — not
`min 28 (1 * 20) = 20` as the claim computes. -/
theorem searchQuery_iteration_yield_cex :
    (SearchQuery.run (List.range 28) 50 (SearchQuery.fresh 1 0 20)).1.length = 21 ∧
    min 28 (1 * 20) = 20 ∧ (21 : Nat) ≠ 20 := by
  refine ⟨by decide, by decide, by decide⟩

/-- Claim C1 (amended): iterating a fresh query with page size `r` and cap
`max_pages = m` against a result set with `numFound = N` yields exactly
`min N ((m + 1) * r)` records (the code fetches pages `1 .. m + 1` before
the page check stops it), and the terminal stop reason is "all records
found" iff `N ≤ (m + 1) * r`, else "maximum pages queried". -/
theorem searchQuery_iteration_yield_spec (world : List α) (r m fuel : Nat)
    (hr : 0 < r) (hfuel : min world.length ((m + 1) * r) + 1 ≤ fuel) :
    ∃ sf : SearchQuery α,
      SearchQuery.run world fuel (SearchQuery.fresh r 0 m) =
        (world.take (min world.length ((m + 1) * r)),
         .stopped
           (if world.length ≤ (m + 1) * r then .allFound else .maxPages) sf) ∧
      (SearchQuery.run world fuel (SearchQuery.fresh r 0 m)).1.length =
        min world.length ((m + 1) * r) := by
  obtain ⟨fuel, rfl⟩ : ∃ f, fuel = f + 1 := ⟨fuel - 1, by omega⟩
  rw [run_fresh_eq]
  have hc0 : ((SearchQuery.fresh r 0 m : SearchQuery α).execute world).iter_counter
      = 0 := rfl
  obtain ⟨pf, sf, hrun, _, _, _⟩ :=
    run_pageInv world r m hr (fuel + 1) 1 _ (fresh_execute_pageInv world r m)
      (by rw [hc0]; omega)
  rw [hc0] at hrun
  simp only [List.drop_zero, Nat.sub_zero] at hrun
  refine ⟨sf, hrun, ?_⟩
  rw [hrun]
  simp only [List.length_take]
  omega

/-- Witness for C1 (amended): three records, `rows = 2`, `max_pages = 0`:
pages 1 is fetched, two records come out, then the stop. -/
theorem searchQuery_iteration_yield_spec_witness :
    ∃ sf : SearchQuery Nat,
      SearchQuery.run (List.range 3) 4 (SearchQuery.fresh 2 0 0) =
        ((List.range 3).take (min (List.range 3).length ((0 + 1) * 2)),
         .stopped
           (if (List.range 3).length ≤ (0 + 1) * 2 then .allFound else .maxPages)
           sf) ∧
      (SearchQuery.run (List.range 3) 4 (SearchQuery.fresh 2 0 0)).1.length =
        min (List.range 3).length ((0 + 1) * 2) :=
  searchQuery_iteration_yield_spec (List.range 3) 2 0 4 (by decide) (by decide)

/-- Claim C2: after a "maximum pages queried" stop, raising `max_pages`
and resuming yields exactly the records following the last yielded one (no
duplicate, no skip: the two phases concatenate to a prefix of the result
set), the total yielded across both phases never exceeds `numFound`, and
an "all records found" stop is unconditionally terminal: any further
`__next__` call stops the same way whatever `max_pages` becomes. -/
theorem searchQuery_resume_after_max_pages (world : List α)
    (r m m2 fuel1 fuel2 : Nat) (hr : 0 < r) (hm : m < m2)
    (hN : (m + 1) * r < world.length)
    (hf1 : (m + 1) * r + 1 ≤ fuel1)
    (hf2 : min world.length ((m2 + 1) * r) + 1 ≤ fuel2 + (m + 1) * r) :
    ∃ s1 s2 : SearchQuery α,
      SearchQuery.run world fuel1 (SearchQuery.fresh r 0 m) =
        (world.take ((m + 1) * r), .stopped .maxPages s1) ∧
      SearchQuery.run world fuel2 { s1 with max_pages := m2 } =
        ((world.drop ((m + 1) * r)).take
            (min world.length ((m2 + 1) * r) - (m + 1) * r),
         .stopped
           (if world.length ≤ (m2 + 1) * r then .allFound else .maxPages) s2) ∧
      world.take ((m + 1) * r) ++
          (world.drop ((m + 1) * r)).take
            (min world.length ((m2 + 1) * r) - (m + 1) * r) =
        world.take (min world.length ((m2 + 1) * r)) ∧
      (world.take ((m + 1) * r)).length +
          ((world.drop ((m + 1) * r)).take
            (min world.length ((m2 + 1) * r) - (m + 1) * r)).length ≤
        world.length ∧
      (∀ (s : SearchQuery α) (mp : Nat),
        s.response = some world.length →
        s.articles.length ≤ s.iter_counter →
        world.length ≤ s.articles.length →
        SearchQuery.next world { s with max_pages := mp } =
          .stopped .allFound { s with max_pages := mp }) := by
  have hT1 : min world.length ((m + 1) * r) = (m + 1) * r := by omega
  have hmul : (m + 1) * r ≤ (m2 + 1) * r :=
    Nat.mul_le_mul_right r (by omega)
  -- phase 1
  obtain ⟨fuel1, rfl⟩ : ∃ f, fuel1 = f + 1 := ⟨fuel1 - 1, by omega⟩
  have hc0 : ((SearchQuery.fresh r 0 m : SearchQuery α).execute world).iter_counter
      = 0 := rfl
  obtain ⟨pf, s1, hrun1, hinv1, hcf1, hpf1⟩ :=
    run_pageInv world r m hr (fuel1 + 1) 1 _ (fresh_execute_pageInv world r m)
      (by rw [hc0]; omega)
  rw [hc0] at hrun1
  simp only [List.drop_zero, Nat.sub_zero] at hrun1
  rw [hT1, if_neg (by omega)] at hrun1
  have hpf1e : pf = m + 1 := hpf1 hN
  subst hpf1e
  -- phase 2 invariant on the state with the raised cap
  obtain ⟨g1, g2, g3, g4, g5, g6, g7, g8⟩ := hinv1
  have hinv2 : PageInv world r m2 (m + 1) { s1 with max_pages := m2 } :=
    ⟨g1, rfl, g3, g4, g5, g6, by omega, by omega⟩
  obtain ⟨pf2, s2, hrun2, hinv3, hcf2, hpf2⟩ :=
    run_pageInv world r m2 hr fuel2 (m + 1) _ hinv2
      (by show _ ≤ fuel2 + s1.iter_counter; omega)
  have hc1 : s1.iter_counter = (m + 1) * r := by omega
  nth_rewrite 3 [hc1] at hrun2
  nth_rewrite 2 [hc1] at hrun2
  refine ⟨s1, s2, ?_, hrun2, ?_, ?_, ?_⟩
  · rw [run_fresh_eq, hrun1]
  · have hadd : (m + 1) * r + (min world.length ((m2 + 1) * r) - (m + 1) * r) =
        min world.length ((m2 + 1) * r) := by omega
    rw [← List.take_add, hadd]
  · simp only [List.length_take, List.length_drop]
    omega
  · intro s mp hresp hlc hnf
    have hresp2 : ({ s with max_pages := mp } : SearchQuery α).response =
        some world.length := hresp
    rw [next_eq_advance world _ world.length hresp2]
    exact advance_stop_allFound world _ world.length hresp2 hlc hnf

/-- Witness for C2: three records, `rows = 1`, `max_pages = 0` raised to
`1` after the first stop. -/
theorem searchQuery_resume_after_max_pages_witness :
    ∃ s1 s2 : SearchQuery Nat,
      SearchQuery.run (List.range 3) 2 (SearchQuery.fresh 1 0 0) =
        ((List.range 3).take ((0 + 1) * 1), .stopped .maxPages s1) ∧
      SearchQuery.run (List.range 3) 2 { s1 with max_pages := 1 } =
        (((List.range 3).drop ((0 + 1) * 1)).take
            (min (List.range 3).length ((1 + 1) * 1) - (0 + 1) * 1),
         .stopped
           (if (List.range 3).length ≤ (1 + 1) * 1 then .allFound else .maxPages)
           s2) ∧
      (List.range 3).take ((0 + 1) * 1) ++
          ((List.range 3).drop ((0 + 1) * 1)).take
            (min (List.range 3).length ((1 + 1) * 1) - (0 + 1) * 1) =
        (List.range 3).take (min (List.range 3).length ((1 + 1) * 1)) ∧
      ((List.range 3).take ((0 + 1) * 1)).length +
          (((List.range 3).drop ((0 + 1) * 1)).take
            (min (List.range 3).length ((1 + 1) * 1) - (0 + 1) * 1)).length ≤
        (List.range 3).length ∧
      (∀ (s : SearchQuery Nat) (mp : Nat),
        s.response = some (List.range 3).length →
        s.articles.length ≤ s.iter_counter →
        (List.range 3).length ≤ s.articles.length →
        SearchQuery.next (List.range 3) { s with max_pages := mp } =
          .stopped .allFound { s with max_pages := mp }) :=
  searchQuery_resume_after_max_pages (List.range 3) 1 0 1 2 2
    (by decide) (by decide) (by decide) (by decide) (by decide)

/-! ## The `Article` record model -/

/-- A Python attribute dictionary: field name to value, where a value may
itself be `None` (`Option.none`). Lookup returns the most recent binding,
matching dict assignment. -/
abbrev FieldMap := List (String × Option String)

/-- `Article`: `raw` is `self._raw`; `attrs` is the instance `__dict__`
(populated from the constructor kwargs by `setattr`, and grown by
`cached_property` when a lazy field is resolved). -/
structure Article where
  raw : FieldMap
  attrs : FieldMap
deriving DecidableEq, Repr

/-- `Article(**doc)`: `_raw = kwargs` and every kwarg is `setattr`-ed onto
the instance. -/
def Article.ofDoc (doc : FieldMap) : Article := { raw := doc, attrs := doc }

/-- Python attribute presence/value for `bibcode`: outer `none` means the
attribute is absent (`hasattr` false), `some none` means it is `None`. -/
def Article.bibcodeAttr (a : Article) : Option (Option String) :=
  a.attrs.lookup "bibcode"

/-- Same for the `id` attribute. -/
def Article.idAttr (a : Article) : Option (Option String) :=
  a.attrs.lookup "id"

/-- `Article.__eq__`: raise `TypeError` unless both sides carry a non-null
`bibcode`; otherwise compare the bibcodes. -/
def Article.eqArticle (a other : Article) : Except String Bool :=
  match a.bibcodeAttr, other.bibcodeAttr with
  | some (some x), some (some y) => .ok (x == y)
  | _, _ => .error "Cannot compare articles without bibcodes"

/-- `Article.__ne__`: `not self.__eq__(other)`; an exception raised by
`__eq__` propagates. -/
def Article.neArticle (a other : Article) : Except String Bool :=
  (Article.eqArticle a other).map (fun b => !b)

/-- The field names defined as `cached_property` lazy fields on `Article`. -/
def lazyFields : List String :=
  ["abstract", "aff", "author", "citation_count", "bibstem", "database",
   "identifier", "first_author_norm", "issue", "keyword", "page", "property",
   "pub", "pubdate", "read_count", "title", "volume", "year"]

/-- The single-field back-query issued by `Article._get_field`:
`SearchQuery(q="id:{id}", fl=field)`. -/
structure FieldRequest where
  q : String
  fl : String
deriving DecidableEq, Repr

/-- Attribute access on an `Article` for a `cached_property` field `f`.
The instance `__dict__` is consulted first (`cached_property` is a
non-data descriptor, and it also stores its result there); on a miss the
descriptor runs `_get_field f`, which requires a non-null `id`, issues one
back-query (modelled by the honest oracle `server : id → field → value`),
writes the value into `_raw`, and the descriptor caches it in `__dict__`.
Returns the value, the updated article, and the list of HTTP requests
issued. -/
def Article.getattr (server : String → String → Option String)
    (a : Article) (f : String) :
    Except String (Option String × Article × List FieldRequest) :=
  match a.attrs.lookup f with
  | some v => .ok (v, a, [])
  | none =>
    if f ∈ lazyFields then
      match a.attrs.lookup "id" with
      | some (some i) =>
        let value := server i f
        .ok (value,
             { raw := (f, value) :: a.raw, attrs := (f, value) :: a.attrs },
             [{ q := "id:" ++ i, fl := f }])
      | _ => .error "Cannot query an article without an id"
    else .error "AttributeError"

/-- Claim C5: equality returns `x == y` exactly when both sides carry a
non-null bibcode (other fields are never consulted); it returns `true` iff
the bibcodes exist, are non-null and match; and it raises when either side
lacks a usable bibcode. -/
theorem article_eq_bibcode_spec :
    (∀ (a b : Article) (x y : String),
      a.bibcodeAttr = some (some x) → b.bibcodeAttr = some (some y) →
      Article.eqArticle a b = .ok (x == y)) ∧
    (∀ (a b : Article),
      (Article.eqArticle a b = .ok true ↔
        ∃ x, a.bibcodeAttr = some (some x) ∧ b.bibcodeAttr = some (some x))) ∧
    (∀ (a b : Article),
      (a.bibcodeAttr = none ∨ a.bibcodeAttr = some none ∨
       b.bibcodeAttr = none ∨ b.bibcodeAttr = some none) →
      Article.eqArticle a b = .error "Cannot compare articles without bibcodes") := by
  refine ⟨?_, ?_, ?_⟩
  · intro a b x y ha hb
    simp [Article.eqArticle, ha, hb]
  · intro a b
    constructor
    · intro h
      match hha : a.bibcodeAttr, hhb : b.bibcodeAttr with
      | some (some x), some (some y) =>
        simp [Article.eqArticle, hha, hhb] at h
        exact ⟨x, rfl, by rw [h]⟩
      | none, _ | some none, _ | some (some _), none | some (some _), some none =>
        simp [Article.eqArticle, hha, hhb] at h
    · rintro ⟨x, ha, hb⟩
      simp [Article.eqArticle, ha, hb]
  · intro a b h
    rcases hha : a.bibcodeAttr with _ | _ | x <;>
        rcases hhb : b.bibcodeAttr with _ | _ | y <;>
        simp [Article.eqArticle, hha, hhb]
    rcases h with h | h | h | h <;> simp_all

/-- Witness for C5 at concrete articles. -/
theorem article_eq_bibcode_spec_witness :
    Article.eqArticle (Article.ofDoc [("bibcode", some "1971Sci...174..142S")])
      (Article.ofDoc [("bibcode", some "1971Sci...174..142S"), ("year", some "1971")]) =
      .ok true ∧
    Article.eqArticle (Article.ofDoc [("year", some "1971")])
      (Article.ofDoc [("bibcode", some "1971Sci...174..142S")]) =
      .error "Cannot compare articles without bibcodes" := by
  constructor
  · exact (article_eq_bibcode_spec.2.1 _ _).mpr
      ⟨"1971Sci...174..142S", by decide, by decide⟩
  · exact article_eq_bibcode_spec.2.2 _ _ (Or.inl (by decide))

/-- Claim C10: `__ne__` is the pointwise negation of `__eq__` when both
bibcodes are usable, and it raises exactly when `__eq__` raises, with the
same error. -/
theorem article_ne_negation_spec :
    (∀ (a b : Article) (x y : String),
      a.bibcodeAttr = some (some x) → b.bibcodeAttr = some (some y) →
      (Article.neArticle a b = .ok true ↔ x ≠ y)) ∧
    (∀ (a b : Article) (v : Bool),
      Article.eqArticle a b = .ok v → Article.neArticle a b = .ok (!v)) ∧
    (∀ (a b : Article) (msg : String),
      Article.eqArticle a b = .error msg → Article.neArticle a b = .error msg) := by
  refine ⟨?_, ?_, ?_⟩
  · intro a b x y ha hb
    simp [Article.neArticle, Article.eqArticle, ha, hb, Except.map]
  · intro a b v h
    simp [Article.neArticle, h, Except.map]
  · intro a b msg h
    simp [Article.neArticle, h, Except.map]

/-- Witness for C10 at concrete articles. -/
theorem article_ne_negation_spec_witness :
    (Article.neArticle (Article.ofDoc [("bibcode", some "A")])
      (Article.ofDoc [("bibcode", some "B")]) = .ok true ↔ ("A" : String) ≠ "B") ∧
    Article.neArticle (Article.ofDoc [("bibcode", some "A")])
      (Article.ofDoc []) = .error "Cannot compare articles without bibcodes" := by
  constructor
  · exact article_ne_negation_spec.1 _ _ "A" "B" (by decide) (by decide)
  · exact article_ne_negation_spec.2.2 _ _ _ rfl

/-- Claim C4: for a lazy field `f` absent at construction, access without a
non-null `id` raises; with an id `i`, the first access issues exactly the
one back-query `q = "id:" ++ i, fl = f`, caches the value onto the field
map (`_raw` and the instance dict), the second access of `f` issues zero
requests, and a distinct absent lazy field `g` still issues its own single
request (memoization is per distinct field, not per record). -/
theorem article_lazy_field_resolution
    (server : String → String → Option String) (a : Article) (f g : String)
    (hf : f ∈ lazyFields) (habs : a.attrs.lookup f = none) :
    ((a.idAttr = none ∨ a.idAttr = some none) →
      Article.getattr server a f = .error "Cannot query an article without an id") ∧
    (∀ i, a.idAttr = some (some i) →
      ∃ a₂,
        Article.getattr server a f =
          .ok (server i f, a₂, [{ q := "id:" ++ i, fl := f }]) ∧
        a₂.raw.lookup f = some (server i f) ∧
        a₂.attrs.lookup f = some (server i f) ∧
        Article.getattr server a₂ f = .ok (server i f, a₂, []) ∧
        (g ∈ lazyFields → g ≠ f → a.attrs.lookup g = none →
          ∃ a₃, Article.getattr server a₂ g =
            .ok (server i g, a₃, [{ q := "id:" ++ i, fl := g }]))) := by
  constructor
  · intro hid
    unfold Article.getattr
    rw [habs]
    rw [if_pos hf]
    rcases hid with hid | hid <;> rw [Article.idAttr] at hid <;> rw [hid]
  · intro i hid
    rw [Article.idAttr] at hid
    refine ⟨{ raw := (f, server i f) :: a.raw, attrs := (f, server i f) :: a.attrs }, ?_, ?_, ?_, ?_, ?_⟩
    · simp [Article.getattr, habs, hf, hid]
    · simp [List.lookup]
    · simp [List.lookup]
    · simp [Article.getattr, List.lookup]
    · intro hg hgf hgabs
      have hfid : f ≠ "id" := by
        intro hcontra
        rw [hcontra] at hf
        exact absurd hf (by decide)
      have hgfb : (g == f) = false := beq_eq_false_iff_ne.mpr hgf
      have hidfb : (("id" : String) == f) = false :=
        beq_eq_false_iff_ne.mpr (Ne.symm hfid)
      have hlg : List.lookup g ((f, server i f) :: a.attrs) = none := by
        rw [List.lookup_cons, hgfb, hgabs]
      have hlid : List.lookup "id" ((f, server i f) :: a.attrs) = some (some i) := by
        rw [List.lookup_cons, hidfb, hid]
      refine ⟨{ raw := (g, server i g) :: (f, server i f) :: a.raw,
                attrs := (g, server i g) :: (f, server i f) :: a.attrs }, ?_⟩
      simp [Article.getattr, hlg, hg, hlid]

/-- Witness for C4: a record with `id = "9"`, resolving `title` then
re-reading it. -/
theorem article_lazy_field_resolution_witness :
    ∃ a₂,
      Article.getattr (fun _ _ => some "VAL")
          (Article.ofDoc [("id", some "9")]) "title" =
        .ok (some "VAL", a₂, [{ q := "id:" ++ "9", fl := "title" }]) ∧
      Article.getattr (fun _ _ => some "VAL") a₂ "title" =
        .ok (some "VAL", a₂, []) := by
  obtain ⟨a₂, h1, _, _, h4, _⟩ :=
    (article_lazy_field_resolution (fun _ _ => some "VAL")
        (Article.ofDoc [("id", some "9")]) "title" "year"
        (by decide) (by decide)).2 "9" (by decide)
  exact ⟨a₂, h1, h4⟩

/-! ## Response parsing (`SolrResponse`, `APIResponse.load_http_response`) -/

/-- The decoded JSON under the `responseHeader` key: may or may not carry
`params`. -/
structure RawResponseHeader where
  params : Option (List (String × String))
deriving DecidableEq, Repr

/-- The decoded JSON under the `response` key. -/
structure RawResponseBody where
  numFound : Option Nat
  docs : Option (List FieldMap)
deriving DecidableEq, Repr

/-- A decoded raw response body: each required key may be missing. -/
structure RawBody where
  responseHeader : Option RawResponseHeader
  response : Option RawResponseBody
deriving DecidableEq, Repr

/-- A raw HTTP response, as seen by `load_http_response`: the transport
success flag `ok`, the (decoded) body text, and headers. -/
structure HTTPResponse where
  ok : Bool
  text : RawBody
  headers : List (String × String)
deriving DecidableEq, Repr

/-- A parsed `SolrResponse`. `_articles` is the memoized articles view
(`None` until first accessed). `response` holds the raw HTTP response once
`load_http_response` attaches it (the transient binding of `response` to
the decoded `response` dict in `__init__` is immediately superseded). -/
structure SolrResponse where
  params : List (String × String)
  numFound : Nat
  docs : List FieldMap
  articlesCache : Option (List Article) := none
  response : Option HTTPResponse := none
deriving DecidableEq, Repr

/-- `SolrResponse.__init__`: extract, in order, `responseHeader`, its
`params`, `response`, `numFound`, `docs`; the first missing key raises
`SolrResponseParseError` carrying that key's name. -/
def SolrResponse.parse (j : RawBody) : Except String SolrResponse :=
  match j.responseHeader with
  | none => .error "responseHeader"
  | some hdr =>
    match hdr.params with
    | none => .error "params"
    | some ps =>
      match j.response with
      | none => .error "response"
      | some resp =>
        match resp.numFound with
        | none => .error "numFound"
        | some nf =>
          match resp.docs with
          | none => .error "docs"
          | some ds => .ok { params := ps, numFound := nf, docs := ds }

/-- The `articles` getter: on first access wrap each doc as an `Article`
and memoize the list; afterwards return the memoized list. The returned
`Nat` counts how many records were wrapped by this call. -/
def SolrResponse.articles (s : SolrResponse) : List Article × SolrResponse × Nat :=
  match s.articlesCache with
  | some arts => (arts, s, 0)
  | none =>
    let arts := s.docs.map Article.ofDoc
    (arts, { s with articlesCache := some arts }, arts.length)

/-- The errors raised by `load_http_response`: `APIResponseError` carrying
the response text verbatim, or the parse error from `SolrResponse.__init__`. -/
inductive APIError where
  | apiResponseError (text : RawBody)
  | solrResponseParseError (key : String)
deriving DecidableEq, Repr

/-- `APIResponse.load_http_response`: non-2xx (`not ok`) raises
`APIResponseError(HTTPResponse.text)`; otherwise parse the body and attach
the raw HTTP response to the envelope. -/
def SolrResponse.load_http_response (h : HTTPResponse) : Except APIError SolrResponse :=
  if h.ok then
    match SolrResponse.parse h.text with
    | .error k => .error (.solrResponseParseError k)
    | .ok c => .ok { c with response := some h }
  else .error (.apiResponseError h.text)

/-- A response body carrying every required key, `numFound = 1`, but two
entries under `docs`. -/
def inconsistentBody : RawBody :=
  { responseHeader := some { params := some [("q", "star")] },
    response := some { numFound := some 1,
                       docs := some [[("bibcode", some "b1")],
                                     [("bibcode", some "b2")]] } }

/-- The envelope `inconsistentBody` parses to. -/
def inconsistentEnvelope : SolrResponse :=
  { params := [("q", "star")], numFound := 1,
    docs := [[("bibcode", some "b1")], [("bibcode", some "b2")]] }

/-- Counterexample to Claim C6 as stated: an envelope with all required
keys present and `numFound = 1` whose `articles` view nevertheless yields
two wrapped records, because the code wraps one record per `docs` entry
and never consults `numFound` for this count. -/
theorem solrResponse_numFound_articles_cex :
    SolrResponse.parse inconsistentBody = .ok inconsistentEnvelope ∧
    inconsistentEnvelope.numFound = 1 ∧
    (SolrResponse.articles inconsistentEnvelope).1.length = 2 := by
  refine ⟨rfl, rfl, rfl⟩

theorem solrResponse_parse_ok_shape (j : RawBody) (s : SolrResponse)
    (h : SolrResponse.parse j = .ok s) :
    ∃ hdr ps resp nf ds,
      j.responseHeader = some hdr ∧ hdr.params = some ps ∧
      j.response = some resp ∧ resp.numFound = some nf ∧ resp.docs = some ds ∧
      s = { params := ps, numFound := nf, docs := ds } := by
  rcases hh : j.responseHeader with _ | hdr
  · simp [SolrResponse.parse, hh] at h
  rcases hp : hdr.params with _ | ps
  · simp [SolrResponse.parse, hh, hp] at h
  rcases hr : j.response with _ | resp
  · simp [SolrResponse.parse, hh, hp, hr] at h
  rcases hn : resp.numFound with _ | nf
  · simp [SolrResponse.parse, hh, hp, hr, hn] at h
  rcases hd : resp.docs with _ | ds
  · simp [SolrResponse.parse, hh, hp, hr, hn, hd] at h
  simp only [SolrResponse.parse, hh, hp, hr, hn, hd, Except.ok.injEq] at h
  exact ⟨hdr, ps, resp, nf, ds, by simp [hh], by simp [hp], by simp [hr],
         by simp [hn], by simp [hd], h.symm⟩

/-- Claim C6 (amended): each required envelope key missing at its point in
the extraction chain raises the parse error naming that key; a successful
parse implies every required key was present (no partial result); and when
`docs` holds exactly one document the articles view wraps exactly one
record on first access and zero on the second (memoized). -/
theorem solrResponse_parse_spec :
    (∀ j : RawBody, j.responseHeader = none →
      SolrResponse.parse j = .error "responseHeader") ∧
    (∀ (j : RawBody) (hdr : RawResponseHeader), j.responseHeader = some hdr →
      hdr.params = none → SolrResponse.parse j = .error "params") ∧
    (∀ (j : RawBody) (hdr : RawResponseHeader) (ps : List (String × String)),
      j.responseHeader = some hdr → hdr.params = some ps → j.response = none →
      SolrResponse.parse j = .error "response") ∧
    (∀ (j : RawBody) (hdr : RawResponseHeader) (ps : List (String × String))
        (resp : RawResponseBody),
      j.responseHeader = some hdr → hdr.params = some ps →
      j.response = some resp → resp.numFound = none →
      SolrResponse.parse j = .error "numFound") ∧
    (∀ (j : RawBody) (hdr : RawResponseHeader) (ps : List (String × String))
        (resp : RawResponseBody) (nf : Nat),
      j.responseHeader = some hdr → hdr.params = some ps →
      j.response = some resp → resp.numFound = some nf → resp.docs = none →
      SolrResponse.parse j = .error "docs") ∧
    (∀ (j : RawBody) (s : SolrResponse), SolrResponse.parse j = .ok s →
      ∃ hdr ps resp nf ds,
        j.responseHeader = some hdr ∧ hdr.params = some ps ∧
        j.response = some resp ∧ resp.numFound = some nf ∧ resp.docs = some ds ∧
        s = { params := ps, numFound := nf, docs := ds }) ∧
    (∀ (j : RawBody) (s : SolrResponse) (d : FieldMap),
      SolrResponse.parse j = .ok s → s.docs = [d] →
      SolrResponse.articles s =
        ([Article.ofDoc d], { s with articlesCache := some [Article.ofDoc d] }, 1) ∧
      SolrResponse.articles { s with articlesCache := some [Article.ofDoc d] } =
        ([Article.ofDoc d], { s with articlesCache := some [Article.ofDoc d] }, 0)) := by
  refine ⟨?_, ?_, ?_, ?_, ?_, ?_, ?_⟩
  · intro j h
    simp [SolrResponse.parse, h]
  · intro j hdr h1 h2
    simp [SolrResponse.parse, h1, h2]
  · intro j hdr ps h1 h2 h3
    simp [SolrResponse.parse, h1, h2, h3]
  · intro j hdr ps resp h1 h2 h3 h4
    simp [SolrResponse.parse, h1, h2, h3, h4]
  · intro j hdr ps resp nf h1 h2 h3 h4 h5
    simp [SolrResponse.parse, h1, h2, h3, h4, h5]
  · exact solrResponse_parse_ok_shape
  · intro j s d hparse hdocs
    have hcache : s.articlesCache = none := by
      obtain ⟨hdr, ps, resp, nf, ds, _, _, _, _, _, hs⟩ :=
        solrResponse_parse_ok_shape j s hparse
      rw [hs]
    constructor
    · simp [SolrResponse.articles, hcache, hdocs]
    · simp [SolrResponse.articles]

/-- Witness for C6 (amended): a complete body with a single doc. -/
theorem solrResponse_parse_spec_witness :
    SolrResponse.parse { responseHeader := none, response := none } =
      .error "responseHeader" ∧
    (SolrResponse.articles
        { params := [], numFound := 1, docs := [[("id", some "1")]] }).1 =
      [Article.ofDoc [("id", some "1")]] := by
  constructor
  · exact solrResponse_parse_spec.1 _ rfl
  · exact ((solrResponse_parse_spec.2.2.2.2.2.2
      { responseHeader := some { params := some [] },
        response := some { numFound := some 1, docs := some [[("id", some "1")]] } }
      { params := [], numFound := 1, docs := [[("id", some "1")]] }
      [("id", some "1")] rfl rfl).1).symm ▸ rfl

/-- Claim C9: `load_http_response` on a failed transport flag raises the
API error carrying the response text verbatim and never builds an
envelope; on success it delegates to the parser (propagating the parse
error) and attaches the raw HTTP response to the returned envelope. -/
theorem load_http_response_spec :
    (∀ h : HTTPResponse, h.ok = false →
      SolrResponse.load_http_response h = .error (.apiResponseError h.text)) ∧
    (∀ (h : HTTPResponse) (k : String), h.ok = true →
      SolrResponse.parse h.text = .error k →
      SolrResponse.load_http_response h = .error (.solrResponseParseError k)) ∧
    (∀ (h : HTTPResponse) (c : SolrResponse), h.ok = true →
      SolrResponse.parse h.text = .ok c →
      SolrResponse.load_http_response h = .ok { c with response := some h }) := by
  refine ⟨?_, ?_, ?_⟩
  · intro h hok
    simp [SolrResponse.load_http_response, hok]
  · intro h k hok hparse
    simp [SolrResponse.load_http_response, hok, hparse]
  · intro h c hok hparse
    simp [SolrResponse.load_http_response, hok, hparse]

/-- Witness for C9: a failed response and a successful one. -/
theorem load_http_response_spec_witness :
    SolrResponse.load_http_response
        { ok := false, text := inconsistentBody, headers := [] } =
      .error (.apiResponseError inconsistentBody) ∧
    SolrResponse.load_http_response
        { ok := true, text := inconsistentBody, headers := [] } =
      .ok { inconsistentEnvelope with
            response := some { ok := true, text := inconsistentBody, headers := [] } } := by
  constructor
  · exact load_http_response_spec.1 _ rfl
  · exact load_http_response_spec.2.2 _ inconsistentEnvelope rfl rfl

/-! ## Credential resolution (`BaseQuery.token`)

The resolution algorithm lives in `BaseQuery.token`; the concrete name
lists (`TOKEN_ENVIRON_VARS`, `TOKEN_FILES`) are configuration constants and
stay universally quantified. `environ v = some t` models the variable being
set (possibly to the empty string); `readFile f = some txt` models the file
opening successfully with contents `txt` (`none` is an `IOError`). -/

/-- Mutable credential state of a query object: `self._token`. -/
structure BaseQuery where
  _token : Option String := none
deriving DecidableEq, Repr

/-- `for v in map(os.environ.get, TOKEN_ENVIRON_VARS): if v is not None:
take it` — the first *set* variable wins, even when its value is empty. -/
def envToken (environ : String → Option String) : List String → Option String
  | [] => none
  | v :: vs =>
    match environ v with
    | some t => some t
    | none => envToken environ vs

/-- `for f in TOKEN_FILES: try: open(f).read().strip() except IOError:
pass` — the first file that opens wins with its trimmed contents, even when
those are empty. -/
def fileToken (readFile : String → Option String) : List String → Option String
  | [] => none
  | f :: fs =>
    match readFile f with
    | some txt => some txt.trim
    | none => fileToken readFile fs

/-- The `token` property getter: return the memoized `_token` when set;
otherwise resolve from the environment, then from the files, memoizing a
found token; if nothing is found, warn (the returned `Bool`) and leave
`_token` unset. -/
def BaseQuery.token (environ readFile : String → Option String)
    (token_environ_vars token_files : List String) (q : BaseQuery) :
    Option String × BaseQuery × Bool :=
  match q._token with
  | some t => (some t, q, false)
  | none =>
    match envToken environ token_environ_vars with
    | some t => (some t, { _token := some t }, false)
    | none =>
      match fileToken readFile token_files with
      | some t => (some t, { _token := some t }, false)
      | none => (none, q, true)

/-- The environment used by the counterexample: the first variable is set
to the empty string, the second to a real token. -/
def cexEnviron : String → Option String :=
  fun v => if v = "ADS_A" then some "" else
           if v = "ADS_B" then some "realtoken" else none

/-- Counterexample to Claim C7 as stated: with the first environment
variable set to the empty string and the second to a non-empty token,
resolution returns the empty string — the first *set* value wins, not the
first non-empty one. -/
theorem token_empty_env_value_cex :
    (BaseQuery.token cexEnviron (fun _ => none) ["ADS_A", "ADS_B"] []
        { _token := none }).1 = some "" ∧
    cexEnviron "ADS_B" = some "realtoken" ∧ ("" : String) ≠ "realtoken" := by
  refine ⟨rfl, rfl, by decide⟩

/-- Claim C7 (amended): an explicitly set token short-circuits resolution
entirely (the sources are never consulted); otherwise the first *set*
environment variable wins, else the first file that opens wins with its
trimmed contents; a found token is memoized onto the query object so a
later call returns it without resolving again; if neither source yields a
token the call warns, returns none, and memoizes nothing. -/
theorem baseQuery_token_resolution :
    (∀ (environ readFile : String → Option String) (vars files : List String)
        (t : String),
      BaseQuery.token environ readFile vars files { _token := some t } =
        (some t, { _token := some t }, false)) ∧
    (∀ (environ : String → Option String) (v : String) (vs : List String)
        (t : String), environ v = some t → envToken environ (v :: vs) = some t) ∧
    (∀ (environ : String → Option String) (v : String) (vs : List String),
      environ v = none → envToken environ (v :: vs) = envToken environ vs) ∧
    (∀ (readFile : String → Option String) (f : String) (fs : List String)
        (txt : String),
      readFile f = some txt → fileToken readFile (f :: fs) = some txt.trim) ∧
    (∀ (readFile : String → Option String) (f : String) (fs : List String),
      readFile f = none → fileToken readFile (f :: fs) = fileToken readFile fs) ∧
    (∀ (environ readFile : String → Option String) (vars files : List String)
        (t : String),
      envToken environ vars = some t →
      BaseQuery.token environ readFile vars files { _token := none } =
        (some t, { _token := some t }, false)) ∧
    (∀ (environ readFile : String → Option String) (vars files : List String)
        (t : String),
      envToken environ vars = none → fileToken readFile files = some t →
      BaseQuery.token environ readFile vars files { _token := none } =
        (some t, { _token := some t }, false)) ∧
    (∀ (environ readFile : String → Option String) (vars files : List String),
      envToken environ vars = none → fileToken readFile files = none →
      BaseQuery.token environ readFile vars files { _token := none } =
        (none, { _token := none }, true)) ∧
    (∀ (environ readFile environ2 readFile2 : String → Option String)
        (vars files vars2 files2 : List String) (q : BaseQuery) (t : String),
      (BaseQuery.token environ readFile vars files q).1 = some t →
      BaseQuery.token environ2 readFile2 vars2 files2
          (BaseQuery.token environ readFile vars files q).2.1 =
        (some t, (BaseQuery.token environ readFile vars files q).2.1, false)) := by
  refine ⟨?_, ?_, ?_, ?_, ?_, ?_, ?_, ?_, ?_⟩
  · intro environ readFile vars files t
    rfl
  · intro environ v vs t h
    simp [envToken, h]
  · intro environ v vs h
    simp [envToken, h]
  · intro readFile f fs txt h
    simp [fileToken, h]
  · intro readFile f fs h
    simp [fileToken, h]
  · intro environ readFile vars files t h
    simp [BaseQuery.token, h]
  · intro environ readFile vars files t h1 h2
    simp [BaseQuery.token, h1, h2]
  · intro environ readFile vars files h1 h2
    simp [BaseQuery.token, h1, h2]
  · intro environ readFile environ2 readFile2 vars files vars2 files2 q t h
    rcases hq : q._token with _ | t0
    · rcases he : envToken environ vars with _ | te
      · rcases hf : fileToken readFile files with _ | tf
        · simp [BaseQuery.token, hq, he, hf] at h
        · simp only [BaseQuery.token, hq, he, hf] at h ⊢
          simp at h
          simp [h]
      · simp only [BaseQuery.token, hq, he] at h ⊢
        simp at h
        simp [h]
    · simp only [BaseQuery.token, hq] at h ⊢
      simp at h
      simp [h]

/-- Witness for C7 (amended) at a concrete environment. -/
theorem baseQuery_token_resolution_witness :
    BaseQuery.token cexEnviron (fun _ => none) ["ADS_X", "ADS_B"] []
        { _token := none } =
      (some "realtoken", { _token := some "realtoken" }, false) := by
  exact baseQuery_token_resolution.2.2.2.2.2.1 cexEnviron (fun _ => none)
    ["ADS_X", "ADS_B"] [] "realtoken" (by decide)

/-! ## `SearchQuery.__init__` validation -/

/-- The solr `fl` default: `SearchQuery.DEFAULT_FIELDS`. -/
def DEFAULT_FIELDS : List String :=
  ["author", "first_author", "bibcode", "id", "year"]

/-- A caller-supplied `query_dict`: the keys `__init__` inspects, each
possibly absent. (A dict carrying an explicit `None` under `rows`/`start`
is outside the model; in Python it fails construction with a `TypeError`.) -/
structure QueryDict where
  q : Option String := none
  rows : Option Int := none
  start : Option Int := none
deriving DecidableEq, Repr

/-- The effective `self._query` built by `__init__` before the asserts:
`q` is `none` only on the `query_dict` path when the dict lacks a `q`. -/
structure BuiltQuery where
  q : Option String
  fq : Option String
  fl : Option (List String)
  sort : Option String
  start : Int
  rows : Int
deriving DecidableEq, Repr

/-- `['{}:"{}"'.format(k, v) for k, v in kwargs]`, joined with spaces. -/
def formatKwargs (kwargs : List (String × String)) : String :=
  String.intercalate " "
    (kwargs.map (fun kv => kv.1 ++ ":\"" ++ kv.2 ++ "\""))

/-- The body of `SearchQuery.__init__` up to (not including) the asserts:
the `query_dict` path applies `setdefault('rows', 50)` and
`setdefault('start', 0)`; the params path replaces a missing `q` by `''`,
drops `None` values, and appends the formatted kwargs to `q`. -/
def buildQuery (query_dict : Option QueryDict) (q : Option String)
    (fq : Option String) (fl : Option (List String)) (sort : Option String)
    (start rows : Int) (kwargs : List (String × String)) : BuiltQuery :=
  match query_dict with
  | some d =>
    { q := d.q, fq := none, fl := none, sort := none,
      start := d.start.getD 0, rows := d.rows.getD 50 }
  | none =>
    let q0 := match q with
      | none => ""
      | some s => s
    let q1 := if kwargs.isEmpty then q0 else q0 ++ " " ++ formatKwargs kwargs
    { q := some q1, fq := fq, fl := fl, sort := sort,
      start := start, rows := rows }

/-- Python truthiness of `self._query.get('q')`: a missing key (`None`)
and the empty string are both falsy. -/
def pyTruthy : Option String → Bool
  | none => false
  | some s => !s.isEmpty

/-- `SearchQuery.__init__`: build the query, then
`assert rows > 0` and `assert q` (in that order); an assert failure is a
fatal construction-time error. -/
def SearchQuery.initChecked (query_dict : Option QueryDict) (q : Option String)
    (fq : Option String) (fl : Option (List String)) (sort : Option String)
    (start rows : Int) (kwargs : List (String × String)) :
    Except String BuiltQuery :=
  let bq := buildQuery query_dict q fq fl sort start rows kwargs
  if bq.rows ≤ 0 then .error "rows must be greater than 0"
  else if !pyTruthy bq.q then .error "q must not be empty"
  else .ok bq

/-- Claim C8: construction succeeds exactly when the effective `rows` is
positive and the effective filter text `q` is truthy (present and
non-empty); on success the established query satisfies both invariants,
and on violation construction fails with the corresponding fatal error. -/
theorem searchQuery_construction_validation
    (query_dict : Option QueryDict) (q : Option String) (fq : Option String)
    (fl : Option (List String)) (sort : Option String) (start rows : Int)
    (kwargs : List (String × String)) :
    ((∃ bq, SearchQuery.initChecked query_dict q fq fl sort start rows kwargs =
        .ok bq) ↔
      (0 < (buildQuery query_dict q fq fl sort start rows kwargs).rows ∧
       pyTruthy (buildQuery query_dict q fq fl sort start rows kwargs).q = true)) ∧
    (∀ bq, SearchQuery.initChecked query_dict q fq fl sort start rows kwargs =
        .ok bq →
      bq = buildQuery query_dict q fq fl sort start rows kwargs ∧
      0 < bq.rows ∧ pyTruthy bq.q = true) ∧
    (¬(0 < (buildQuery query_dict q fq fl sort start rows kwargs).rows ∧
       pyTruthy (buildQuery query_dict q fq fl sort start rows kwargs).q = true) →
      ∃ msg, SearchQuery.initChecked query_dict q fq fl sort start rows kwargs =
        .error msg) := by
  set bq0 := buildQuery query_dict q fq fl sort start rows kwargs with hbq0
  refine ⟨?_, ?_, ?_⟩
  · constructor
    · rintro ⟨bq, hbq⟩
      unfold SearchQuery.initChecked at hbq
      rw [← hbq0] at hbq
      by_cases h1 : bq0.rows ≤ 0
      · simp [h1] at hbq
      by_cases h2 : pyTruthy bq0.q = true
      · exact ⟨by omega, h2⟩
      · simp [h1, h2] at hbq
    · rintro ⟨h1, h2⟩
      refine ⟨bq0, ?_⟩
      unfold SearchQuery.initChecked
      rw [← hbq0]
      simp [h2, show ¬bq0.rows ≤ 0 by omega]
  · intro bq hbq
    unfold SearchQuery.initChecked at hbq
    rw [← hbq0] at hbq
    by_cases h1 : bq0.rows ≤ 0
    · simp [h1] at hbq
    by_cases h2 : pyTruthy bq0.q = true
    · simp [h1, h2] at hbq
      refine ⟨hbq.symm, ?_, ?_⟩
      · rw [← hbq]
        omega
      · rw [← hbq]
        exact h2
    · simp [h1, h2] at hbq
  · intro hno
    unfold SearchQuery.initChecked
    rw [← hbq0]
    by_cases h1 : bq0.rows ≤ 0
    · exact ⟨"rows must be greater than 0", by simp [h1]⟩
    · have h2 : ¬pyTruthy bq0.q = true := by
        intro h2
        exact hno ⟨by omega, h2⟩
      exact ⟨"q must not be empty", by simp [h1, h2]⟩

/-- Witness for C8: a valid construction and an empty-`q` rejection. -/
theorem searchQuery_construction_validation_witness :
    (∃ bq, SearchQuery.initChecked none (some "star") none
        (some DEFAULT_FIELDS) none 0 50 [] = .ok bq) ∧
    (∃ msg, SearchQuery.initChecked none none none
        (some DEFAULT_FIELDS) none 0 50 [] = .error msg) := by
  constructor
  · exact (searchQuery_construction_validation none (some "star") none
      (some DEFAULT_FIELDS) none 0 50 []).1.mpr ⟨by decide, by decide⟩
  · exact (searchQuery_construction_validation none none none
      (some DEFAULT_FIELDS) none 0 50 []).2.2 (by decide)

end Ads
